import Mathlib

/-!
Formal model of the cabinet-meet backend (`src/index.js`): the registration
table PDF export (`GET /api/admin/export/registrations`), the bulk ID card
PDF export (`GET /api/admin/export/idcards`), their shared photo-placeholder
logic, and the `POST /api/register` validation.

Coordinates and sizes are modelled as exact rationals (PDF user-space units);
the drawing side effects of the two export loops are modelled as event lists
(`TableEvent`, `CardEvent`) recording what is drawn on which page.  Page sizes
follow pdfkit's built-in page dictionary: A4 portrait is 595.28 × 841.89
units, A3 portrait is 841.89 × 1190.55 units.
-/

/-- A registration record as the exports read it from the store
(`Registration.find({}).lean()`).  `photoUrl = ""` models a missing/falsy
photo path (the registration route stores `''` when no file is uploaded). -/
structure Record where
  name : String
  cluster : String
  unit : String
  designations : List String
  photoUrl : String
deriving DecidableEq

/-! ## Registration table export (A4 portrait, margin 50) -/

/-- Height of an A4 portrait page in PDF units (pdfkit `doc.page.height`). -/
def a4Height : ℚ := 841.89

/-- The `margin: 50` option of the table export's `PDFDocument`. -/
def tableMargin : ℚ := 50

/-- The printable bottom edge used by the pagination check:
`doc.page.height - doc.page.margins.bottom`. -/
def pageBottom : ℚ := a4Height - tableMargin

/-- `const rowHeight = 60`. -/
def rowHeight : ℚ := 60

/-- The `colWidths` object of the table export. -/
structure ColWidths where
  sn : ℚ
  photo : ℚ
  name : ℚ
  cluster : ℚ
  unit : ℚ
  designations : ℚ
  signature : ℚ
deriving DecidableEq

def colWidths : ColWidths :=
  { sn := 30, photo := 50, name := 90, cluster := 60, unit := 60,
    designations := 120, signature := 60 }

/-- Drawing events of the table export, in emission order.  `header p` is one
invocation of `drawTableHeader` (title block plus column-header row) on page
`p`; `row p y n reg` is the body row for `reg` drawn on page `p` with its top
edge at vertical position `y` and serial number `n`. -/
inductive TableEvent
  | header (page : ℕ)
  | row (page : ℕ) (y : ℚ) (serial : ℕ) (reg : Record)
deriving DecidableEq

/-- Mutable loop state of the table export: current page, `yPosition`,
`serialNo`, and the events drawn so far. -/
structure TableState where
  page : ℕ
  y : ℚ
  serial : ℕ
  events : List TableEvent
deriving DecidableEq

/-- One iteration of the `for` loop over `registrations` (lines 216–321).
`hb` is the `yPosition` returned by `drawTableHeader` (bottom edge of the
20-unit header row under the title block); it is the same on every page
because `doc.y` equals the top margin both on the first page and right after
`doc.addPage`.  If the pagination check
`yPosition + rowHeight > doc.page.height - doc.page.margins.bottom` fires, a
page is added and the header re-drawn before the row; afterwards the row is
drawn at the current `yPosition`, the serial incremented and `yPosition`
advanced by `rowHeight`. -/
def tableStep (hb : ℚ) (s : TableState) (reg : Record) : TableState :=
  if pageBottom < s.y + rowHeight then
    { page := s.page + 1
      y := hb + rowHeight
      serial := s.serial + 1
      events := (s.events ++ [TableEvent.header (s.page + 1)]) ++
        [TableEvent.row (s.page + 1) hb s.serial reg] }
  else
    { page := s.page
      y := s.y + rowHeight
      serial := s.serial + 1
      events := s.events ++ [TableEvent.row s.page s.y s.serial reg] }

/-- The whole table export body: draw the first page header, then loop over
the records with `serialNo = 1`. -/
def renderTable (hb : ℚ) (regs : List Record) : TableState :=
  regs.foldl (tableStep hb)
    { page := 1, y := hb, serial := 1, events := [TableEvent.header 1] }

/-- The serial numbers drawn in body rows, in drawing order. -/
def rowSerials (l : List TableEvent) : List ℕ :=
  l.filterMap fun e =>
    match e with
    | TableEvent.row _ _ n _ => some n
    | TableEvent.header _ => none

/-- Every body row is preceded (strictly earlier in drawing order) by a
`drawTableHeader` invocation on the same page. -/
def headerPrecedes (l : List TableEvent) : Prop :=
  ∀ (i : ℕ) (p : ℕ) (y : ℚ) (n : ℕ) (r : Record),
    l[i]? = some (TableEvent.row p y n r) →
    ∃ j : ℕ, j < i ∧ l[j]? = some (TableEvent.header p)

/-- Content drawn into a photo slot: either the image itself (with placement
and fit box) or a gray placeholder label. -/
inductive PhotoCell
  | image (path : String) (x y fitW fitH : ℚ)
  | placeholder (size : ℚ) (color text : String) (x y width : ℚ)
deriving DecidableEq

/-- The photo column of a table row (lines 239–272).  `fileExists` models
`fs.existsSync`, `drawOk` models whether `doc.image` succeeds (`false` means
the call throws and the `catch` branch runs).  The three non-image branches
are written out separately, mirroring the three separate placeholder call
sites in the source. -/
def tablePhotoCell (fileExists drawOk : String → Bool) (x y : ℚ)
    (reg : Record) : PhotoCell :=
  if reg.photoUrl = "" then
    PhotoCell.placeholder 8 "gray" "N/A" x (y + 20) colWidths.photo
  else if fileExists reg.photoUrl then
    if drawOk reg.photoUrl then
      PhotoCell.image reg.photoUrl (x + 5) (y + 5) (colWidths.photo - 10) 50
    else
      PhotoCell.placeholder 8 "gray" "N/A" x (y + 20) colWidths.photo
  else
    PhotoCell.placeholder 8 "gray" "N/A" x (y + 20) colWidths.photo

/-- The text cells of one table body row (lines 229–307): serial number,
name, cluster and unit verbatim, designations joined with `", "`
(`reg.designations.join(', ')`), and a blank signature cell. -/
structure RowCells where
  sn : String
  name : String
  cluster : String
  unit : String
  designations : String
  signature : String
deriving DecidableEq

def tableRowCells (serialNo : ℕ) (reg : Record) : RowCells :=
  { sn := toString serialNo
    name := reg.name
    cluster := reg.cluster
    unit := reg.unit
    designations := String.intercalate ", " reg.designations
    signature := "" }

/-! ## ID card export (A3 portrait, margin 20) -/

/-- Width of an A3 portrait page in PDF units (pdfkit `doc.page.width`). -/
def a3Width : ℚ := 841.89

/-- Height of an A3 portrait page in PDF units (pdfkit `doc.page.height`). -/
def a3Height : ℚ := 1190.55

/-- `const cardWidth = (5.9 / 2.54) * 300`. -/
def cardWidth : ℚ := 5.9 / 2.54 * 300

/-- `const cardHeight = (8.4 / 2.54) * 300`. -/
def cardHeight : ℚ := 8.4 / 2.54 * 300

/-- `const columns = 5`. -/
def columns : ℕ := 5

/-- `const rows = 5`. -/
def rows : ℕ := 5

/-- `const cardsPerPage = columns * rows`. -/
def cardsPerPage : ℕ := columns * rows

/-- `const margin = 20` of the ID card export. -/
def cardMargin : ℚ := 20

/-- `pageWidth - margin * 2`. -/
def availableWidth : ℚ := a3Width - cardMargin * 2

/-- `pageHeight - margin * 2`. -/
def availableHeight : ℚ := a3Height - cardMargin * 2

/-- `const gutterX = (availableWidth - columns * cardWidth) / (columns + 1)`. -/
def gutterX : ℚ := (availableWidth - (columns : ℚ) * cardWidth) / ((columns : ℚ) + 1)

/-- `const gutterY = (availableHeight - rows * cardHeight) / (rows + 1)`. -/
def gutterY : ℚ := (availableHeight - (rows : ℚ) * cardHeight) / ((rows : ℚ) + 1)

/-- Horizontal origin of the card in grid column `colIndex`:
`margin + gutterX + colIndex * (cardWidth + gutterX)`. -/
def cardX (colIndex : ℕ) : ℚ := cardMargin + gutterX + (colIndex : ℚ) * (cardWidth + gutterX)

/-- Vertical origin of the card in grid row `rowIndex`:
`margin + gutterY + rowIndex * (cardHeight + gutterY)`. -/
def cardY (rowIndex : ℕ) : ℚ := cardMargin + gutterY + (rowIndex : ℚ) * (cardHeight + gutterY)

/-- `const cmToPx300 = (cm) => Math.round(cm * (300 / 2.54))`; for the
arguments used here JavaScript's `Math.round x` equals `⌊x + 1/2⌋`. -/
def cmToPx300 (cm : ℚ) : ℤ := ⌊cm * (300 / 2.54) + 1 / 2⌋

/-- The photo slot of `drawIDCard` (lines 367–411), with the source's
`PHOTO_DIAMETER_PX`, `PHOTO_TOP_PX` and `PHOTO_LEFT_PX` placement.  As in
`tablePhotoCell`, the three placeholder call sites of the source are kept as
three separate branches. -/
def cardPhotoSlot (fileExists drawOk : String → Bool) (x y : ℚ)
    (reg : Record) : PhotoCell :=
  if reg.photoUrl = "" then
    PhotoCell.placeholder ((cmToPx300 0.3 : ℤ) : ℚ) "gray" "No Photo"
      (x + (cardWidth - ((cmToPx300 2.5 : ℤ) : ℚ)) / 2)
      (y + ((cmToPx300 1.9 : ℤ) : ℚ) + ((cmToPx300 2.5 : ℤ) : ℚ) / 2 -
        ((cmToPx300 0.15 : ℤ) : ℚ))
      ((cmToPx300 2.5 : ℤ) : ℚ)
  else if fileExists reg.photoUrl then
    if drawOk reg.photoUrl then
      PhotoCell.image reg.photoUrl
        (x + (cardWidth - ((cmToPx300 2.5 : ℤ) : ℚ)) / 2)
        (y + ((cmToPx300 1.9 : ℤ) : ℚ))
        ((cmToPx300 2.5 : ℤ) : ℚ) ((cmToPx300 2.5 : ℤ) : ℚ)
    else
      PhotoCell.placeholder ((cmToPx300 0.3 : ℤ) : ℚ) "gray" "No Photo"
        (x + (cardWidth - ((cmToPx300 2.5 : ℤ) : ℚ)) / 2)
        (y + ((cmToPx300 1.9 : ℤ) : ℚ) + ((cmToPx300 2.5 : ℤ) : ℚ) / 2 -
          ((cmToPx300 0.15 : ℤ) : ℚ))
        ((cmToPx300 2.5 : ℤ) : ℚ)
  else
    PhotoCell.placeholder ((cmToPx300 0.3 : ℤ) : ℚ) "gray" "No Photo"
      (x + (cardWidth - ((cmToPx300 2.5 : ℤ) : ℚ)) / 2)
      (y + ((cmToPx300 1.9 : ℤ) : ℚ) + ((cmToPx300 2.5 : ℤ) : ℚ) / 2 -
        ((cmToPx300 0.15 : ℤ) : ℚ))
      ((cmToPx300 2.5 : ℤ) : ℚ)

/-- The three text lines drawn on a card below the photo slot
(lines 413–441): name, `` `${reg.cluster} – ${reg.unit}` ``, and the
designations joined with `", "`. -/
structure CardTexts where
  name : String
  clusterUnit : String
  designations : String
deriving DecidableEq

def cardTexts (reg : Record) : CardTexts :=
  { name := reg.name
    clusterUnit := reg.cluster ++ " – " ++ reg.unit
    designations := String.intercalate ", " reg.designations }

/-- Drawing events of the ID card export: `card p c r reg` is one
`drawIDCard` call on page `p` at grid cell `(c, r)` (column, row);
`newPage p` is the `doc.addPage` call that begins page `p`. -/
inductive CardEvent
  | card (page colIndex rowIndex : ℕ) (reg : Record)
  | newPage (page : ℕ)
deriving DecidableEq

/-- Loop state of the ID card export: current page, `cardCount`, and the
events so far. -/
structure CardState where
  page : ℕ
  cardCount : ℕ
  events : List CardEvent
deriving DecidableEq

/-- The `for` loop of lines 444–460.  `posIndex = cardCount % cardsPerPage`
selects the grid cell; after drawing, `cardCount` is incremented and
`doc.addPage` runs when `cardCount % cardsPerPage === 0 && i <
registrations.length - 1`; for the record currently at the head of the list
that last conjunct is exactly `rest ≠ []`. -/
def cardsGo : CardState → List Record → CardState
  | s, [] => s
  | s, reg :: rest =>
    let posIndex := s.cardCount % cardsPerPage
    let ev := s.events ++
      [CardEvent.card s.page (posIndex % columns) (posIndex / columns) reg]
    if (s.cardCount + 1) % cardsPerPage = 0 ∧ rest ≠ [] then
      cardsGo
        { page := s.page + 1, cardCount := s.cardCount + 1,
          events := ev ++ [CardEvent.newPage (s.page + 1)] } rest
    else
      cardsGo { page := s.page, cardCount := s.cardCount + 1, events := ev } rest

/-- The whole ID card export loop, starting on page 1 with `cardCount = 0`. -/
def renderCards (regs : List Record) : CardState :=
  cardsGo { page := 1, cardCount := 0, events := [] } regs

/-- Modelled from the spec's description of card placement and pagination,
for comparison with `renderCards`: the card with 0-based overall index `i`
sits at grid cell `(i % 5, i / 5 % 5)` of page `i / 25 + 1`, and a page
break follows card `i` exactly when `i + 1` is a (positive) multiple of 25
and at least one of the `n` records remains (`i + 1 < n`), so the last page
is never followed by a blank page. -/
def cardEventsSpec (n : ℕ) : ℕ → List Record → List CardEvent
  | _, [] => []
  | i, reg :: rest =>
    CardEvent.card (i / 25 + 1) (i % 5) (i / 5 % 5) reg ::
      ((if (i + 1) % 25 = 0 ∧ i + 1 < n then
          [CardEvent.newPage ((i + 1) / 25 + 1)]
        else []) ++
        cardEventsSpec n (i + 1) rest)

/-- The `(page, column, row)` placements of the cards drawn, in order. -/
def cardCells (l : List CardEvent) : List (ℕ × ℕ × ℕ) :=
  l.filterMap fun e =>
    match e with
    | CardEvent.card p c r _ => some (p, c, r)
    | CardEvent.newPage _ => none

/-- How many cards are drawn on page `p`. -/
def cardsOnPage (l : List CardEvent) (p : ℕ) : ℕ :=
  l.countP fun e =>
    match e with
    | CardEvent.card q _ _ _ => q == p
    | CardEvent.newPage _ => false

/-! ## POST /api/register -/

/-- The `designations` field of a request body: absent, a single string, or
an array of strings (the two shapes the handler distinguishes). -/
inductive DesigInput
  | missing
  | str (s : String)
  | arr (l : List String)
deriving DecidableEq

/-- A `POST /api/register` request: the destructured body fields plus the
optional uploaded file's stored path (`req.file.path`). -/
structure RegisterBody where
  name : Option String
  cluster : Option String
  unit : Option String
  designations : DesigInput
  file : Option String
deriving DecidableEq

/-- JavaScript falsiness of a possibly-missing string field (`undefined` or
the empty string). -/
def falsyStr : Option String → Bool
  | none => true
  | some s => s == ""

/-- JavaScript falsiness of the `designations` field: `undefined` and `''`
are falsy; any array — including the empty array — is truthy. -/
def falsyDesig : DesigInput → Bool
  | DesigInput.missing => true
  | DesigInput.str s => s == ""
  | DesigInput.arr _ => false

inductive RegisterResponse
  | badRequest (message : String)
  | ok (message : String) (data : Record)
deriving DecidableEq

/-- The `POST /api/register` handler (lines 72–105): reject with
400 `'Missing required fields.'` when any of `name`, `cluster`, `unit`,
`designations` is falsy; otherwise store the record with `photoUrl` the
uploaded file's path (or `''` with no upload) and `designations` the array
as-is, or the string split on `','` with every item trimmed. -/
def postRegister (body : RegisterBody) : RegisterResponse :=
  if falsyStr body.name || falsyStr body.cluster || falsyStr body.unit ||
      falsyDesig body.designations then
    RegisterResponse.badRequest "Missing required fields."
  else
    RegisterResponse.ok "Registration successful"
      { name := body.name.getD ""
        cluster := body.cluster.getD ""
        unit := body.unit.getD ""
        designations :=
          match body.designations with
          | DesigInput.str s => (s.splitOn ",").map String.trim
          | DesigInput.arr l => l
          | DesigInput.missing => []
        photoUrl := (body.file.getD "") }

/-- The saved record of a successful response. -/
def savedData : RegisterResponse → Option Record
  | RegisterResponse.ok _ r => some r
  | RegisterResponse.badRequest _ => none

/-- A concrete record used by the closed witness statements below. -/
def sampleRec : Record :=
  { name := "n", cluster := "c", unit := "u", designations := [], photoUrl := "" }

/-! ## Theorems -/

/-- C5 counterexample: the claimed geometry fails on the code.  The card
dimensions are converted at 300 units per inch while pdfkit page sizes are
in 72-per-inch points, so five cards (≈ 3484 units) cannot fit in the
801.89 available units: the computed gutters are not nonnegative and the
cards do not all lie inside the printable area (the first column starts
left of the page edge). -/
theorem card_grid_geometry_counterexample :
    ¬(0 ≤ gutterX ∧ 0 ≤ gutterY ∧
      ∀ c : ℕ, c < columns →
        cardMargin ≤ cardX c ∧ cardX c + cardWidth ≤ a3Width - cardMargin) := by
  intro h
  have hx : gutterX < 0 := by
    norm_num [gutterX, availableWidth, a3Width, cardMargin, cardWidth, columns]
  exact absurd h.1 (not_le.mpr hx)

/-- C5 amended: the gutter equation
`columns * cardWidth + (columns + 1) * gutterX = availableWidth` (and its
row counterpart) does hold by construction, but the gutters are negative
(≈ −447.06 and −635.01 units) and the 25 cards overflow the printable area:
the first grid column starts left of the page edge and the last grid column
extends past the right printable edge. -/
theorem card_grid_geometry_amended :
    (columns : ℚ) * cardWidth + ((columns : ℚ) + 1) * gutterX = availableWidth ∧
    (rows : ℚ) * cardHeight + ((rows : ℚ) + 1) * gutterY = availableHeight ∧
    gutterX < 0 ∧ gutterY < 0 ∧
    cardX 0 < 0 ∧ a3Width - cardMargin < cardX (columns - 1) + cardWidth := by
  refine ⟨?_, ?_, ?_, ?_, ?_, ?_⟩ <;>
    norm_num [gutterX, gutterY, availableWidth, availableHeight, a3Width,
      a3Height, cardMargin, cardWidth, cardHeight, columns, rows, cardX]

/-- C8: with zero records both exports terminate after their setup: the
table export's page 1 holds exactly the title+header block and no body
rows, and the ID card export stays on page 1 with no cards drawn. -/
theorem empty_exports_minimal (hb : ℚ) :
    (renderTable hb []).events = [TableEvent.header 1] ∧
    (renderTable hb []).page = 1 ∧
    (renderCards []).events = ([] : List CardEvent) ∧
    (renderCards []).page = 1 :=
  ⟨rfl, rfl, rfl, rfl⟩

/-- C9: in both exports the designations field is rendered as the record's
designations joined by `", "`, and for an empty designations sequence it
renders as the empty string (the join is total, so rendering cannot fail
there). -/
theorem designations_join_rendering :
    (∀ (n : ℕ) (reg : Record),
      (tableRowCells n reg).designations = String.intercalate ", " reg.designations ∧
      (cardTexts reg).designations = String.intercalate ", " reg.designations) ∧
    (∀ (n : ℕ) (reg : Record), reg.designations = [] →
      (tableRowCells n reg).designations = "" ∧ (cardTexts reg).designations = "") := by
  refine ⟨fun n reg => ⟨rfl, rfl⟩, fun n reg h => ⟨?_, ?_⟩⟩
  · show String.intercalate ", " reg.designations = ""
    rw [h]
    rfl
  · show String.intercalate ", " reg.designations = ""
    rw [h]
    rfl

/-- Closed witness for `designations_join_rendering`. -/
theorem designations_join_rendering_witness :
    (tableRowCells 1 sampleRec).designations = "" ∧
    (cardTexts sampleRec).designations = "" :=
  designations_join_rendering.2 1 sampleRec rfl

/-- C4: in each export, the three photo failure modes — falsy photo path,
referenced file not on disk, and a `doc.image` call that throws — all
produce one and the same gray placeholder (`"N/A"` in the table's photo
cell, `"No Photo"` in the card's photo slot), and the slot-rendering
functions are total, so rendering never fails on account of the photo. -/
theorem photo_placeholder_uniform (fe dok : String → Bool) (x y : ℚ)
    (reg : Record)
    (h : reg.photoUrl = "" ∨ fe reg.photoUrl = false ∨ dok reg.photoUrl = false) :
    tablePhotoCell fe dok x y reg =
      PhotoCell.placeholder 8 "gray" "N/A" x (y + 20) colWidths.photo ∧
    cardPhotoSlot fe dok x y reg =
      PhotoCell.placeholder ((cmToPx300 0.3 : ℤ) : ℚ) "gray" "No Photo"
        (x + (cardWidth - ((cmToPx300 2.5 : ℤ) : ℚ)) / 2)
        (y + ((cmToPx300 1.9 : ℤ) : ℚ) + ((cmToPx300 2.5 : ℤ) : ℚ) / 2 -
          ((cmToPx300 0.15 : ℤ) : ℚ))
        ((cmToPx300 2.5 : ℤ) : ℚ) := by
  unfold tablePhotoCell cardPhotoSlot
  rcases h with h | h | h
  · simp [h]
  · by_cases hu : reg.photoUrl = "" <;> simp [hu, h]
  · by_cases hu : reg.photoUrl = ""
    · simp [hu]
    · by_cases hf : fe reg.photoUrl <;> simp [hu, hf, h]

/-- Closed witness for `photo_placeholder_uniform`: a record whose photo
file does not exist on disk. -/
theorem photo_placeholder_uniform_witness :
    tablePhotoCell (fun _ => false) (fun _ => true) 0 0
        { sampleRec with photoUrl := "uploads/p.jpg" } =
      PhotoCell.placeholder 8 "gray" "N/A" 0 ((0 : ℚ) + 20) colWidths.photo ∧
    cardPhotoSlot (fun _ => false) (fun _ => true) 0 0
        { sampleRec with photoUrl := "uploads/p.jpg" } =
      PhotoCell.placeholder ((cmToPx300 0.3 : ℤ) : ℚ) "gray" "No Photo"
        ((0 : ℚ) + (cardWidth - ((cmToPx300 2.5 : ℤ) : ℚ)) / 2)
        ((0 : ℚ) + ((cmToPx300 1.9 : ℤ) : ℚ) + ((cmToPx300 2.5 : ℤ) : ℚ) / 2 -
          ((cmToPx300 0.15 : ℤ) : ℚ))
        ((cmToPx300 2.5 : ℤ) : ℚ) :=
  photo_placeholder_uniform (fun _ => false) (fun _ => true) 0 0
    { sampleRec with photoUrl := "uploads/p.jpg" } (Or.inr (Or.inl rfl))

/-- C10: `POST /api/register` responds 400 `'Missing required fields.'`
exactly on a falsy `name`, `cluster`, `unit` or `designations` (an empty
designations array is truthy and passes); on success a string
`designations` is split on `','` and each item trimmed, and a missing
upload is stored as `photoUrl = ""`. -/
theorem register_validation :
    (∀ body : RegisterBody,
      (falsyStr body.name || falsyStr body.cluster || falsyStr body.unit ||
        falsyDesig body.designations) = true →
      postRegister body = RegisterResponse.badRequest "Missing required fields.") ∧
    (∀ (body : RegisterBody) (s : String), body.designations = DesigInput.str s →
      (falsyStr body.name || falsyStr body.cluster || falsyStr body.unit ||
        falsyDesig body.designations) = false →
      (savedData (postRegister body)).map Record.designations =
        some ((s.splitOn ",").map String.trim)) ∧
    (∀ body : RegisterBody, body.file = none →
      (falsyStr body.name || falsyStr body.cluster || falsyStr body.unit ||
        falsyDesig body.designations) = false →
      (savedData (postRegister body)).map Record.photoUrl = some "") := by
  refine ⟨fun body h => ?_, fun body s hs h => ?_, fun body hf h => ?_⟩
  · simp [postRegister, h]
  · have hc : ¬((falsyStr body.name || falsyStr body.cluster || falsyStr body.unit ||
        falsyDesig body.designations) = true) := by
      rw [h]; exact Bool.false_ne_true
    simp only [postRegister, if_neg hc]
    simp [savedData, hs]
  · have hc : ¬((falsyStr body.name || falsyStr body.cluster || falsyStr body.unit ||
        falsyDesig body.designations) = true) := by
      rw [h]; exact Bool.false_ne_true
    simp only [postRegister, if_neg hc]
    simp [savedData, hf]

/-- Closed witness for `register_validation`: a body missing `name` is
rejected, a string `designations` is split and trimmed, a missing upload
stores the empty `photoUrl`. -/
theorem register_validation_witness :
    postRegister
        { name := none, cluster := some "c", unit := some "u",
          designations := DesigInput.arr [], file := none } =
      RegisterResponse.badRequest "Missing required fields." ∧
    (savedData (postRegister
        { name := some "a", cluster := some "c", unit := some "u",
          designations := DesigInput.str "x, y", file := none })).map
      Record.designations = some (("x, y".splitOn ",").map String.trim) ∧
    (savedData (postRegister
        { name := some "a", cluster := some "c", unit := some "u",
          designations := DesigInput.str "x", file := none })).map
      Record.photoUrl = some "" :=
  ⟨register_validation.1 _ rfl,
   register_validation.2.1 _ "x, y" rfl rfl,
   register_validation.2.2 _ rfl rfl⟩


/-- Characterization of the ID card loop: starting with `cnt` cards already
drawn on page `cnt / 25 + 1`, processing `rest` appends exactly the events
described by `cardEventsSpec` and leaves the counter at `cnt + rest.length`
and the page counter at the page of the last drawn card.  The page
hypothesis is only needed when a record remains to be drawn. -/
theorem cardsGo_characterization :
    ∀ (rest : List Record) (pg cnt : ℕ) (ev : List CardEvent),
    (rest ≠ [] → pg = cnt / 25 + 1) →
    cardsGo ⟨pg, cnt, ev⟩ rest =
      ⟨if rest = [] then pg else (cnt + rest.length - 1) / 25 + 1,
       cnt + rest.length,
       ev ++ cardEventsSpec (cnt + rest.length) cnt rest⟩ := by
  intro rest
  induction rest with
  | nil => intro pg cnt ev _; simp [cardsGo, cardEventsSpec]
  | cons reg rest ih =>
    intro pg cnt ev hinv
    have hpage : pg = cnt / 25 + 1 := hinv (by simp)
    have hcp : cardsPerPage = 25 := rfl
    have hcl : columns = 5 := rfl
    have e1 : cnt % 25 % 5 = cnt % 5 := by omega
    have e2 : cnt % 25 / 5 = cnt / 5 % 5 := by omega
    by_cases hrest : rest = []
    · subst hrest
      rw [cardsGo]
      dsimp only
      rw [if_neg (by simp)]
      rw [cardsGo]
      rw [cardEventsSpec]
      have hc2 : ¬((cnt + 1) % 25 = 0 ∧ cnt + 1 < cnt + ([reg] : List Record).length) := by
        simp
      rw [if_neg hc2]
      rw [cardEventsSpec]
      rw [if_neg (List.cons_ne_nil reg ([] : List Record))]
      simp only [List.length_cons, List.length_nil]
      rw [CardState.mk.injEq]
      refine ⟨by omega, by omega, ?_⟩
      simp only [hcp, hcl, e1, e2, List.nil_append, List.append_nil,
        List.singleton_append]
      rw [hpage]
    · have hlen : 0 < rest.length := List.length_pos.mpr hrest
      by_cases hmod : (cnt + 1) % 25 = 0
      · rw [cardsGo]
        dsimp only
        rw [if_pos ⟨hmod, hrest⟩]
        rw [ih (pg + 1) (cnt + 1) _ (fun _ => by omega)]
        have hc1 : (cnt + 1) % 25 = 0 ∧ cnt + 1 < cnt + (reg :: rest).length := by
          refine ⟨hmod, ?_⟩
          simp only [List.length_cons]
          omega
        rw [cardEventsSpec, if_pos hc1]
        rw [if_neg hrest, if_neg (List.cons_ne_nil reg rest)]
        simp only [List.length_cons]
        rw [CardState.mk.injEq]
        refine ⟨by omega, by omega, ?_⟩
        simp only [hcp, hcl, e1, e2, List.append_assoc, List.cons_append,
          List.singleton_append, List.nil_append]
        rw [hpage]
        have e6 : cnt / 25 + 1 + 1 = (cnt + 1) / 25 + 1 := by omega
        have e5 : cnt + 1 + rest.length = cnt + (rest.length + 1) := by omega
        rw [e6, e5]
      · rw [cardsGo]
        dsimp only
        rw [if_neg (fun hco => hmod hco.1)]
        rw [ih pg (cnt + 1) _ (fun _ => by omega)]
        have hc1 : ¬((cnt + 1) % 25 = 0 ∧ cnt + 1 < cnt + (reg :: rest).length) :=
          fun hco => hmod hco.1
        rw [cardEventsSpec, if_neg hc1]
        rw [if_neg hrest, if_neg (List.cons_ne_nil reg rest)]
        simp only [List.length_cons]
        rw [CardState.mk.injEq]
        refine ⟨by omega, by omega, ?_⟩
        simp only [hcp, hcl, e1, e2, List.append_assoc, List.cons_append,
          List.singleton_append, List.nil_append]
        rw [hpage]
        have e5 : cnt + 1 + rest.length = cnt + (rest.length + 1) := by omega
        rw [e5]

/-- The final state of the card export in closed form. -/
theorem renderCards_events (regs : List Record) :
    renderCards regs =
      ⟨if regs = [] then 1 else (regs.length - 1) / 25 + 1,
       regs.length, cardEventsSpec regs.length 0 regs⟩ := by
  rw [renderCards, cardsGo_characterization regs 1 0 [] (fun _ => by omega)]
  simp

/-- The card placements of `cardEventsSpec`, indexed from `k`. -/
theorem cardCells_spec (regs : List Record) : ∀ k n : ℕ,
    cardCells (cardEventsSpec n k regs) =
      (List.range' k regs.length).map (fun i => (i / 25 + 1, i % 5, i / 5 % 5)) := by
  induction regs with
  | nil => intro k n; simp [cardEventsSpec, cardCells]
  | cons reg rest ih =>
    intro k n
    rw [cardEventsSpec]
    by_cases hc : (k + 1) % 25 = 0 ∧ k + 1 < n
    · rw [if_pos hc]
      simp only [cardCells] at ih ⊢
      simp [ih, List.range'_succ]
    · rw [if_neg hc]
      simp only [cardCells] at ih ⊢
      simp [ih, List.range'_succ]

/-- Cards per page of `cardEventsSpec`, indexed from `k`. -/
theorem cardsOnPage_spec (regs : List Record) : ∀ k n p : ℕ,
    cardsOnPage (cardEventsSpec n k regs) p =
      (List.range' k regs.length).countP (fun j => j / 25 + 1 == p) := by
  induction regs with
  | nil => intro k n p; simp [cardEventsSpec, cardsOnPage]
  | cons reg rest ih =>
    intro k n p
    rw [cardEventsSpec]
    by_cases hc : (k + 1) % 25 = 0 ∧ k + 1 < n
    · rw [if_pos hc]
      simp only [cardsOnPage] at ih ⊢
      simp [ih, List.range'_succ, List.countP_cons]
    · rw [if_neg hc]
      simp only [cardsOnPage] at ih ⊢
      simp [ih, List.range'_succ, List.countP_cons]

/-- C2: the ID card export draws exactly the events of `cardEventsSpec`
(its doc comment spells out the claimed placement and page-break policy);
in particular the `i`-th card (0-based) is placed at grid cell
`(i % 5, i / 5 % 5)` of page `i / 25 + 1`, a page break happens exactly
after a positive multiple of 25 cards with records remaining, and no
trailing blank page follows the final record. -/
theorem card_grid_placement (regs : List Record) :
    (renderCards regs).events = cardEventsSpec regs.length 0 regs ∧
    cardCells (renderCards regs).events =
      (List.range regs.length).map (fun i => (i / 25 + 1, i % 5, i / 5 % 5)) := by
  constructor
  · rw [renderCards_events]
  · rw [renderCards_events]
    dsimp only
    rw [cardCells_spec]
    rw [List.range_eq_range']

/-- C7: with exactly 26 records the ID card export produces exactly 2
pages, 25 cards drawn on page 1 and 1 card on page 2. -/
theorem idcards_26_two_pages (regs : List Record) (h : regs.length = 26) :
    (renderCards regs).page = 2 ∧
    cardsOnPage (renderCards regs).events 1 = 25 ∧
    cardsOnPage (renderCards regs).events 2 = 1 := by
  have hne : regs ≠ [] := by
    intro h0
    rw [h0] at h
    simp at h
  rw [renderCards_events]
  dsimp only
  rw [if_neg hne, h]
  refine ⟨by norm_num, ?_, ?_⟩
  · rw [cardsOnPage_spec, h]
    decide
  · rw [cardsOnPage_spec, h]
    decide

/-- Closed witness for `idcards_26_two_pages` on a concrete 26-record
input. -/
theorem idcards_26_two_pages_witness :
    (renderCards (List.replicate 26 sampleRec)).page = 2 ∧
    cardsOnPage (renderCards (List.replicate 26 sampleRec)).events 1 = 25 ∧
    cardsOnPage (renderCards (List.replicate 26 sampleRec)).events 2 = 1 :=
  idcards_26_two_pages (List.replicate 26 sampleRec) (by simp)

/-- `rowSerials` distributes over append. -/
theorem rowSerials_append (l₁ l₂ : List TableEvent) :
    rowSerials (l₁ ++ l₂) = rowSerials l₁ ++ rowSerials l₂ :=
  List.filterMap_append l₁ l₂ _

/-- A header contributes no serial. -/
theorem rowSerials_header (p : ℕ) : rowSerials [TableEvent.header p] = [] := rfl

/-- A body row contributes its serial. -/
theorem rowSerials_row (p : ℕ) (y : ℚ) (n : ℕ) (r : Record) :
    rowSerials [TableEvent.row p y n r] = [n] := rfl

/-- Serial bookkeeping of the table loop: if the serials drawn so far are
`1, …, s.serial - 1`, then after folding `regs` they are
`1, …, s.serial - 1 + regs.length`. -/
theorem renderTable_serials_aux (hb : ℚ) :
    ∀ (regs : List Record) (s : TableState),
    rowSerials s.events = List.range' 1 (s.serial - 1) → 1 ≤ s.serial →
    rowSerials ((regs.foldl (tableStep hb) s).events) =
      List.range' 1 (s.serial - 1 + regs.length) ∧
    (regs.foldl (tableStep hb) s).serial = s.serial + regs.length := by
  intro regs
  induction regs with
  | nil =>
    intro s h1 h2
    refine ⟨by simpa using h1, by simp⟩
  | cons reg rest ih =>
    intro s h1 h2
    rw [List.foldl_cons]
    have helt : 1 + 1 * (s.serial - 1) = s.serial := by omega
    have hconc : List.range' 1 s.serial =
        List.range' 1 (s.serial - 1) ++ [s.serial] := by
      conv_lhs => rw [show s.serial = s.serial - 1 + 1 by omega]
      rw [show List.range' 1 (s.serial - 1 + 1) =
        List.range' 1 (s.serial - 1) ++ [1 + 1 * (s.serial - 1)] from
        List.range'_concat 1 (s.serial - 1), helt]
    have hstep : rowSerials (tableStep hb s reg).events = List.range' 1 s.serial ∧
        (tableStep hb s reg).serial = s.serial + 1 := by
      rw [tableStep]
      by_cases hc : pageBottom < s.y + rowHeight
      · rw [if_pos hc]
        dsimp only
        rw [rowSerials_append, rowSerials_append, rowSerials_header,
          rowSerials_row, h1, List.append_nil, hconc]
        exact ⟨rfl, rfl⟩
      · rw [if_neg hc]
        dsimp only
        rw [rowSerials_append, rowSerials_row, h1, hconc]
        exact ⟨rfl, rfl⟩
    obtain ⟨hs1, hs2⟩ := hstep
    have h3 : rowSerials (tableStep hb s reg).events =
        List.range' 1 ((tableStep hb s reg).serial - 1) := by
      rw [hs1, hs2]
      simp
    obtain ⟨hr1, hr2⟩ := ih (tableStep hb s reg) h3 (by omega)
    constructor
    · rw [hr1, hs2]
      simp only [List.length_cons]
      congr 1
      omega
    · rw [hr2, hs2]
      simp only [List.length_cons]
      omega

/-- C3: across the whole table export, the serials drawn in body rows are
exactly `1, 2, …, N` in drawing order: the `k`-th record's row carries
serial `k`, strictly increasing and unaffected by page breaks. -/
theorem table_serials (hb : ℚ) (regs : List Record) :
    rowSerials (renderTable hb regs).events = List.range' 1 regs.length := by
  rw [renderTable]
  have h := renderTable_serials_aux hb regs
    ⟨1, hb, 1, [TableEvent.header 1]⟩ rfl le_rfl
  simpa using h.1

/-- A list holding a single header has no row to cover. -/
theorem headerPrecedes_singleton (p : ℕ) :
    headerPrecedes [TableEvent.header p] := by
  intro i q y n r hi
  cases i with
  | zero => simp at hi
  | succ m => simp at hi

/-- Appending a header preserves `headerPrecedes`. -/
theorem headerPrecedes_snoc_header (l : List TableEvent) (q : ℕ)
    (hl : headerPrecedes l) : headerPrecedes (l ++ [TableEvent.header q]) := by
  intro i p y n r hi
  rw [List.getElem?_append] at hi
  by_cases hlt : i < l.length
  · rw [if_pos hlt] at hi
    obtain ⟨j, hj1, hj2⟩ := hl i p y n r hi
    refine ⟨j, hj1, ?_⟩
    rw [List.getElem?_append, if_pos (hj1.trans hlt)]
    exact hj2
  · rw [if_neg hlt] at hi
    rcases h0 : i - l.length with _ | m
    · rw [h0] at hi
      simp at hi
    · rw [h0] at hi
      simp at hi

/-- Appending a row on page `p` preserves `headerPrecedes`, provided a
header for page `p` is already present. -/
theorem headerPrecedes_snoc_row (l : List TableEvent) (p : ℕ) (y : ℚ) (n : ℕ)
    (r : Record) (hl : headerPrecedes l) (hm : TableEvent.header p ∈ l) :
    headerPrecedes (l ++ [TableEvent.row p y n r]) := by
  intro i p' y' n' r' hi
  rw [List.getElem?_append] at hi
  by_cases hlt : i < l.length
  · rw [if_pos hlt] at hi
    obtain ⟨j, hj1, hj2⟩ := hl i p' y' n' r' hi
    refine ⟨j, hj1, ?_⟩
    rw [List.getElem?_append, if_pos (hj1.trans hlt)]
    exact hj2
  · rw [if_neg hlt] at hi
    rcases h0 : i - l.length with _ | m
    · rw [h0] at hi
      simp only [List.getElem?_cons_zero, Option.some.injEq,
        TableEvent.row.injEq] at hi
      obtain ⟨j, hj, hje⟩ := List.getElem_of_mem hm
      refine ⟨j, by omega, ?_⟩
      rw [List.getElem?_append, if_pos hj, List.getElem?_eq_getElem hj, hje,
        hi.1]
    · rw [h0] at hi
      simp at hi

/-- Invariant of the table loop used for the pagination claim: all rows
drawn so far fit above the printable bottom, every row is preceded by a
same-page header, and the current page's header has been drawn. -/
theorem renderTable_pagination_aux (hb : ℚ)
    (hhb : hb + rowHeight ≤ pageBottom) :
    ∀ (regs : List Record) (s : TableState),
    ((∀ (p : ℕ) (y : ℚ) (n : ℕ) (r : Record),
        TableEvent.row p y n r ∈ s.events → y + rowHeight ≤ pageBottom) ∧
      headerPrecedes s.events ∧ TableEvent.header s.page ∈ s.events) →
    ((∀ (p : ℕ) (y : ℚ) (n : ℕ) (r : Record),
        TableEvent.row p y n r ∈ (regs.foldl (tableStep hb) s).events →
          y + rowHeight ≤ pageBottom) ∧
      headerPrecedes ((regs.foldl (tableStep hb) s).events) ∧
      TableEvent.header ((regs.foldl (tableStep hb) s).page) ∈
        (regs.foldl (tableStep hb) s).events) := by
  intro regs
  induction regs with
  | nil => intro s hs; simpa using hs
  | cons reg rest ih =>
    intro s hs
    obtain ⟨hbound, hhp, hmem⟩ := hs
    rw [List.foldl_cons]
    apply ih
    rw [tableStep]
    by_cases hc : pageBottom < s.y + rowHeight
    · rw [if_pos hc]
      dsimp only
      refine ⟨?_, ?_, ?_⟩
      · intro p y n r hm
        simp only [List.mem_append, List.mem_singleton] at hm
        rcases hm with (hm | hm) | hm
        · exact hbound p y n r hm
        · simp at hm
        · rw [TableEvent.row.injEq] at hm
          rw [hm.2.1]
          exact hhb
      · refine headerPrecedes_snoc_row _ _ _ _ _
          (headerPrecedes_snoc_header _ _ hhp) ?_
        simp
      · simp
    · rw [if_neg hc]
      dsimp only
      push_neg at hc
      refine ⟨?_, ?_, ?_⟩
      · intro p y n r hm
        simp only [List.mem_append, List.mem_singleton] at hm
        rcases hm with hm | hm
        · exact hbound p y n r hm
        · rw [TableEvent.row.injEq] at hm
          rw [hm.2.1]
          exact hc
      · exact headerPrecedes_snoc_row _ _ _ _ _ hhp hmem
      · exact List.mem_append_left _ hmem

/-- C1: provided a header block plus one row fit on a page
(`hb + rowHeight ≤ pageBottom`, true of the real title metrics), every body
row drawn by the table export ends at or above the printable bottom — the
pagination check fires before drawing, so no row is ever split across
pages — and every row is preceded in drawing order by the title+header
block of its own page. -/
theorem table_pagination (hb : ℚ) (regs : List Record)
    (hhb : hb + rowHeight ≤ pageBottom) :
    (∀ (p : ℕ) (y : ℚ) (n : ℕ) (r : Record),
      TableEvent.row p y n r ∈ (renderTable hb regs).events →
        y + rowHeight ≤ pageBottom) ∧
    headerPrecedes ((renderTable hb regs).events) := by
  rw [renderTable]
  have hinit :
      ((∀ (p : ℕ) (y : ℚ) (n : ℕ) (r : Record),
          TableEvent.row p y n r ∈
            (TableState.mk 1 hb 1 [TableEvent.header 1]).events →
            y + rowHeight ≤ pageBottom) ∧
        headerPrecedes (TableState.mk 1 hb 1 [TableEvent.header 1]).events ∧
        TableEvent.header (TableState.mk 1 hb 1 [TableEvent.header 1]).page ∈
          (TableState.mk 1 hb 1 [TableEvent.header 1]).events) := by
    refine ⟨?_, headerPrecedes_singleton 1, by simp⟩
    intro p y n r hm
    simp at hm
  have h := renderTable_pagination_aux hb hhb regs
    (TableState.mk 1 hb 1 [TableEvent.header 1]) hinit
  exact ⟨h.1, h.2.1⟩

/-- Closed witness for `table_pagination` at a realistic header bottom of
150 units. -/
theorem table_pagination_witness :
    (150 : ℚ) + rowHeight ≤ pageBottom ∧
    ((∀ (p : ℕ) (y : ℚ) (n : ℕ) (r : Record),
      TableEvent.row p y n r ∈ (renderTable 150 [sampleRec]).events →
        y + rowHeight ≤ pageBottom) ∧
    headerPrecedes ((renderTable 150 [sampleRec]).events)) :=
  ⟨by norm_num [rowHeight, pageBottom, a4Height, tableMargin],
   table_pagination 150 [sampleRec]
     (by norm_num [rowHeight, pageBottom, a4Height, tableMargin])⟩
